import Mathlib

/-!
Verification of the meeting-notification decision engine of the
ms-teams-notifier extension: the meeting selector and time-window
evaluator, the poll scheduler, and the notification state machine
formed by MeetingMonitor (src/util/meeting-monitor.ts) together with
its single NotificationManager listener
(src/util/notification-manager.ts), plus the pure window predicate
isInRingWindow (src/models/ring-window.ts).

Times are modelled as integers (milliseconds since the epoch, the
value of Date.getTime()).  The DOM, audio engine and timers are
modelled by explicit state fields and explicit inputs: each operation
receives the booleans it would read from the DOM and timers are
represented by their absolute fire time.
-/

/-- Constants.NOTIFY_BEFORE_EVENT_START_MS from src/common/constants.ts. -/
def NOTIFY_BEFORE_EVENT_START_MS : Int := 180 * 2 * 60 * 1000

/-- Constants.NOTIFY_AFTER_EVENT_START_MS from src/common/constants.ts. -/
def NOTIFY_AFTER_EVENT_START_MS : Int := 180 * 2 * 60 * 1000

/-- CalendarEvent from src/models/calendar-event.ts.  The startTime and
endTime strings are modelled by their parsed epoch-millisecond values
(the code always uses new Date(event.startTime).getTime()). -/
structure CalendarEvent where
  objectId : String
  startTime : Int
  endTime : Int
  subject : String
  isAllDayEvent : Bool
  isCancelled : Bool
  isOnlineMeeting : Bool
  skypeTeamsMeetingUrl : String
deriving DecidableEq, Repr

/-- RingWindow from src/models/ring-window.ts. -/
structure RingWindow where
  msBeforeStart : Int
  msAfterStart : Int
deriving DecidableEq, Repr

/-- isInRingWindow from src/models/ring-window.ts: currentTime lies
between startTime - msBeforeStart and startTime + msAfterStart,
both comparisons non-strict. -/
def isInRingWindow (startTime currentTime : Int) (ringWindow : RingWindow) : Bool :=
  decide (startTime - ringWindow.msBeforeStart ≤ currentTime) &&
  decide (currentTime ≤ startTime + ringWindow.msAfterStart)

/-- The window filter inside MeetingMonitor.getEarliestRingableEvent:
the event is skipped when timeUntilStart > NOTIFY_BEFORE_EVENT_START_MS
or timeUntilStart < -NOTIFY_AFTER_EVENT_START_MS, so it passes exactly
when both negations hold. -/
def inNotifyWindow (startTime now : Int) : Bool :=
  decide (startTime - now ≤ NOTIFY_BEFORE_EVENT_START_MS) &&
  decide (-NOTIFY_AFTER_EVENT_START_MS ≤ startTime - now)

/-- The full per-event filter of the selector loop: all-day and
cancelled events are skipped, then the window filter applies. -/
def isRingableAt (now : Int) (e : CalendarEvent) : Bool :=
  !e.isAllDayEvent && !e.isCancelled && inNotifyWindow e.startTime now

/-- Comparator used by the selector's sort: ascending by start time.
Array.prototype.sort with this comparator is a stable sort
(required by ECMAScript 2019), modelled by List.insertionSort, which
places each element before later elements of equal key. -/
def startLe (a b : CalendarEvent) : Prop :=
  a.startTime ≤ b.startTime

instance : DecidableRel startLe := fun a b => by
  unfold startLe; infer_instance

instance : IsTotal CalendarEvent startLe :=
  ⟨fun a b => Int.le_total a.startTime b.startTime⟩

instance : IsTrans CalendarEvent startLe :=
  ⟨fun _ _ _ h1 h2 => le_trans h1 h2⟩

/-- MeetingMonitor.getEarliestRingableEvent: sort the fetched events
ascending by start time (stable), scan in order, skip all-day and
cancelled events and events outside the notify window, and return the
first event that passes; null when none does. -/
def getEarliestRingableEvent (proximalEvents : List CalendarEvent) (now : Int) :
    Option CalendarEvent :=
  (List.insertionSort startLe proximalEvents).find? (isRingableAt now)

/-- Modelled from the spec (section 4.2, Meeting Selector, and the
Earliest-wins property): among the candidates that are ringable at
now, return the one with minimal start time, breaking ties in favour
of the candidate earliest in the original fetch order; none when no
candidate qualifies.  Scanning from the left, a later candidate
replaces the current best only when its start time is strictly
smaller. -/
def selectRingableSpec (now : Int) : List CalendarEvent → Option CalendarEvent
  | [] => none
  | e :: l =>
    match selectRingableSpec now l with
    | none => if isRingableAt now e then some e else none
    | some x =>
      if isRingableAt now e then
        if e.startTime ≤ x.startTime then some e else some x
      else some x

/-- Combined state of MeetingMonitor and its single NotificationManager
listener (the wiring used by the application: the NotificationManager
is registered as the only UpcomingMeetingListener).  Timer handles
are modelled by their payload: pollingIntervalId by the delay of the
pending poll timer in milliseconds, notificationTimeout by the
absolute time at which the armed timeout fires. -/
structure SystemState where
  /-- MeetingMonitor.isActivelyRunning. -/
  isActivelyRunning : Bool
  /-- MeetingMonitor.pollingIntervalId: delay of the pending poll
  timer, none when no timer is pending. -/
  pollingIntervalId : Option Nat
  /-- MeetingMonitor.activeNotificationEvent. -/
  activeNotificationEvent : Option CalendarEvent
  /-- NotificationManager.isRinging. -/
  isRinging : Bool
  /-- Whether the Howl ringtone reports playing(); play() makes it
  true, stop() makes it false. -/
  ringtonePlaying : Bool
  /-- NotificationManager.currentEvent. -/
  currentEvent : Option CalendarEvent
  /-- NotificationManager.dismissedEvents, a Set of object ids kept in
  insertion order. -/
  dismissedEvents : List String
  /-- NotificationManager.notificationTimeout: absolute fire time of
  the armed timeout, none when no timeout is armed. -/
  notificationTimeout : Option Int
  /-- NotificationManager.userIsJoiningOrInCall. -/
  userIsJoiningOrInCall : Bool
deriving DecidableEq, Repr

/-- Set.add on the dismissed-events set: appends the id when absent. -/
def addDismissed (id : String) (l : List String) : List String :=
  if id ∈ l then l else l ++ [id]

/-- Fire time of window.setTimeout(cb, delay) issued at time now: a
negative delay is clamped to zero by the host. -/
def setTimeoutFireTime (now delay : Int) : Int :=
  now + max delay 0

/-- NotificationManager.stopNotification: stop the ringtone when it is
playing, remove the notification buttons, clear the armed timeout, add
the current event's id to the dismissed set, clear the monitor's
active notification (setActiveNotification(null)) and forget the
current event. -/
def stopNotification (s : SystemState) : SystemState :=
  { s with
    isRinging := if s.ringtonePlaying then false else s.isRinging,
    ringtonePlaying := false,
    notificationTimeout := none,
    dismissedEvents :=
      match s.currentEvent with
      | some e => addDismissed e.objectId s.dismissedEvents
      | none => s.dismissedEvents,
    activeNotificationEvent := none,
    currentEvent := none }

/-- The callback armed by onUpcomingMeeting's setTimeout: it invokes
stopNotification. -/
def notificationTimeoutFire (s : SystemState) : SystemState :=
  stopNotification s

/-- NotificationManager.onUpcomingMeeting.  Suppressed when the event
is dismissed; ignored while already ringing; otherwise records the
event as current and active, starts the ringtone when it is not
already playing, captures the ring-start baseline from the presence of
the hangup button only (hangupExists), and arms the timeout for
(startTime - now) + NOTIFY_AFTER_EVENT_START_MS milliseconds. -/
def onUpcomingMeeting (event : CalendarEvent) (now : Int) (hangupExists : Bool)
    (s : SystemState) : SystemState :=
  if event.objectId ∈ s.dismissedEvents then s
  else if s.isRinging then s
  else
    { s with
      currentEvent := some event,
      activeNotificationEvent := some event,
      isRinging := if s.ringtonePlaying then s.isRinging else true,
      ringtonePlaying := true,
      userIsJoiningOrInCall := hangupExists,
      notificationTimeout :=
        some (setTimeoutFireTime now
          ((event.startTime - now) + NOTIFY_AFTER_EVENT_START_MS)) }

/-- NotificationManager.onNoUpcomingMeetings: clear the dismissed set,
then stop any active notification (which re-adds the id of the event
that was being notified, when there is one). -/
def onNoUpcomingMeetings (s : SystemState) : SystemState :=
  stopNotification { s with dismissedEvents := [] }

/-- NotificationManager.onDomChange: sample the combined signal from
the prejoin and hangup buttons; stop the notification when ringing and
the previously stored sample was false while the new one is true; then
store the new sample. -/
def onDomChange (prejoinExists hangupExists : Bool) (s : SystemState) : SystemState :=
  let userIsNowJoiningOrInCall := prejoinExists || hangupExists
  let s1 :=
    if s.isRinging && !s.userIsJoiningOrInCall && userIsNowJoiningOrInCall then
      stopNotification s
    else s
  { s1 with userIsJoiningOrInCall := userIsNowJoiningOrInCall }

/-- Truthiness of apiClient.authToken (a string or null): the guard
if (!this.apiClient.authToken) treats null and the empty string as
absent. -/
def tokenTruthy : Option String → Bool
  | none => false
  | some t => t ≠ ""

/-- One listener callback emitted by a poll cycle. -/
inductive ListenerCall where
  | upcoming (event : CalendarEvent)
  | noUpcoming
deriving DecidableEq, Repr

/-- MeetingMonitor.checkForUpcomingMeetings with the NotificationManager
as the sole listener.  The fetch outcome is an explicit input: an
exception from apiClient.getEvents is caught by the try/catch, making
the cycle a no-op.  Returns the new state together with the listener
callbacks invoked during the cycle. -/
def checkForUpcomingMeetings (authToken : Option String)
    (fetched : Except Unit (List CalendarEvent)) (now : Int)
    (hangupExists : Bool) (s : SystemState) : SystemState × List ListenerCall :=
  if tokenTruthy authToken = false then (s, [])
  else
    match fetched with
    | .error _ => (s, [])
    | .ok proximalEvents =>
      match getEarliestRingableEvent proximalEvents now with
      | some nextRingableEvent =>
        if s.activeNotificationEvent.isSome then (s, [])
        else
          (onUpcomingMeeting nextRingableEvent now hangupExists s,
           [ListenerCall.upcoming nextRingableEvent])
      | none =>
        if s.activeNotificationEvent.isSome then
          ({ onNoUpcomingMeetings s with activeNotificationEvent := none },
           [ListenerCall.noUpcoming])
        else (s, [])

/-- The delay computed by MeetingMonitor.scheduleNextPoll from the
current second of the minute: time to the next :30 or :00 boundary in
milliseconds, plus 30000 when that is under 10000. -/
def nextPollDelayMs (seconds : Nat) : Nat :=
  let timeToNextPoll := if seconds < 30 then 30 - seconds else 60 - seconds
  let delay := timeToNextPoll * 1000
  if delay < 10000 then delay + 30000 else delay

/-- MeetingMonitor.scheduleNextPoll: cancel any pending poll timer and
arm a one-shot timer for nextPollDelayMs. -/
def scheduleNextPoll (secondsNow : Nat) (s : SystemState) : SystemState :=
  { s with pollingIntervalId := some (nextPollDelayMs secondsNow) }

/-- MeetingMonitor.startMonitoring: a no-op when already active;
otherwise mark active, run an immediate check, and schedule the
polling cycle. -/
def startMonitoring (authToken : Option String)
    (fetched : Except Unit (List CalendarEvent)) (now : Int)
    (hangupExists : Bool) (secondsNow : Nat) (s : SystemState) :
    SystemState × List ListenerCall :=
  if s.isActivelyRunning then (s, [])
  else
    let p := checkForUpcomingMeetings authToken fetched now hangupExists
      { s with isActivelyRunning := true }
    (scheduleNextPoll secondsNow p.1, p.2)

/-- MeetingMonitor.stopMonitoring: clears the pending poll timer.  It
does not touch isActivelyRunning. -/
def stopMonitoring (s : SystemState) : SystemState :=
  { s with pollingIntervalId := none }

/-- The poll timer callback: run a check, then reschedule.  The
rescheduling is unconditional because the check catches its own
exceptions. -/
def pollTimerTick (authToken : Option String)
    (fetched : Except Unit (List CalendarEvent)) (now : Int)
    (hangupExists : Bool) (secondsNow : Nat) (s : SystemState) :
    SystemState × List ListenerCall :=
  let p := checkForUpcomingMeetings authToken fetched now hangupExists s
  (scheduleNextPoll secondsNow p.1, p.2)

/-- State of a freshly constructed MeetingMonitor and
NotificationManager pair: nothing running, nothing ringing, no
dismissed events. -/
def initialSystemState : SystemState :=
  { isActivelyRunning := false
    pollingIntervalId := none
    activeNotificationEvent := none
    isRinging := false
    ringtonePlaying := false
    currentEvent := none
    dismissedEvents := []
    notificationTimeout := none
    userIsJoiningOrInCall := false }

/-- Sample meeting starting one minute after epoch time zero. -/
def evA : CalendarEvent :=
  { objectId := "A", startTime := 60000, endTime := 1860000, subject := "Standup",
    isAllDayEvent := false, isCancelled := false, isOnlineMeeting := true,
    skypeTeamsMeetingUrl := "https://teams.microsoft.com/meet/a" }

/-- Sample meeting starting three minutes after epoch time zero. -/
def evB : CalendarEvent :=
  { objectId := "B", startTime := 180000, endTime := 1980000, subject := "Review",
    isAllDayEvent := false, isCancelled := false, isOnlineMeeting := true,
    skypeTeamsMeetingUrl := "https://teams.microsoft.com/meet/b" }

/-- State in which a notification for evA is ringing: reached from the
initial state by a poll cycle that selected evA. -/
def ringingState : SystemState :=
  { isActivelyRunning := true
    pollingIntervalId := some 30000
    activeNotificationEvent := some evA
    isRinging := true
    ringtonePlaying := true
    currentEvent := some evA
    dismissedEvents := []
    notificationTimeout := some (60000 + NOTIFY_AFTER_EVENT_START_MS)
    userIsJoiningOrInCall := false }

/-- Idle state whose dismissed set still holds one identifier. -/
def dismissedIdleState : SystemState :=
  { initialSystemState with dismissedEvents := ["X"] }

/-- State after the first startMonitoring call on the initial state
(with no auth token, so the immediate check is a no-op). -/
def startedState : SystemState :=
  (startMonitoring none (.ok []) 0 false 0 initialSystemState).1

/-- State after stopMonitoring on startedState. -/
def stoppedState : SystemState :=
  stopMonitoring startedState

/-- Unfolding equation for selectRingableSpec on a cons cell. -/
theorem selectRingableSpec_cons (now : Int) (e : CalendarEvent) (l : List CalendarEvent) :
    selectRingableSpec now (e :: l) =
      match selectRingableSpec now l with
      | none => if isRingableAt now e then some e else none
      | some x =>
        if isRingableAt now e then
          if e.startTime ≤ x.startTime then some e else some x
        else some x := rfl

/-- Scanning an ordered insertion for the first match: when the
inserted element matches the filter it wins unless an element already
found earlier in the sorted list has a strictly smaller key. -/
theorem find?_orderedInsert (q : CalendarEvent → Bool) (e : CalendarEvent) :
    ∀ s : List CalendarEvent, s.Sorted startLe →
      (List.orderedInsert startLe e s).find? q =
        match s.find? q with
        | none => if q e then some e else none
        | some x =>
          if q e then
            if startLe e x then some e else some x
          else some x
  | [], _ => by
    simp only [List.orderedInsert, List.find?_nil]
    cases hq : q e with
    | true => simp [List.find?_cons_of_pos _ hq]
    | false =>
      have h1 : ¬q e = true := by simp [hq]
      rw [List.find?_cons_of_neg _ h1, List.find?_nil]
      simp [hq]
  | x :: xs, hs => by
    have hxs : xs.Sorted startLe := hs.of_cons
    by_cases he : startLe e x
    · rw [List.orderedInsert_of_le _ _ he]
      cases hq : q e with
      | false =>
        rw [List.find?_cons_of_neg _ (by simp [hq])]
        cases hfx : List.find? q (x :: xs) <;> simp [hq]
      | true =>
        rw [List.find?_cons_of_pos _ hq]
        cases hfx : List.find? q (x :: xs) with
        | none => simp [hq]
        | some y =>
          have hy : y ∈ x :: xs := List.mem_of_find?_eq_some hfx
          have hxy : startLe x y := by
            rcases List.mem_cons.mp hy with h | h
            · subst h; exact le_refl _
            · exact List.rel_of_sorted_cons hs y h
          have hey : startLe e y := le_trans he hxy
          simp [hq, hey]
    · have hro : List.orderedInsert startLe e (x :: xs) =
          x :: List.orderedInsert startLe e xs := by
        simp [List.orderedInsert, he]
      rw [hro]
      cases hx : q x with
      | true =>
        rw [List.find?_cons_of_pos _ hx, List.find?_cons_of_pos _ hx]
        cases hq : q e <;> simp [hq, he]
      | false =>
        rw [List.find?_cons_of_neg _ (by simp [hx]),
          List.find?_cons_of_neg _ (by simp [hx])]
        exact find?_orderedInsert q e xs hxs

/-- The source selector computes the spec selector: sorting stably by
start time and taking the first ringable event is the same as taking
the leftmost minimal-start ringable event of the original list. -/
theorem getEarliestRingableEvent_eq_spec (l : List CalendarEvent) (now : Int) :
    getEarliestRingableEvent l now = selectRingableSpec now l := by
  induction l with
  | nil => rfl
  | cons e l ih =>
    unfold getEarliestRingableEvent at *
    show (List.orderedInsert startLe e (List.insertionSort startLe l)).find?
      (isRingableAt now) = _
    rw [find?_orderedInsert (isRingableAt now) e _ (List.sorted_insertionSort startLe l),
      ih, selectRingableSpec_cons]
    cases selectRingableSpec now l <;> simp [startLe]

/-- A selected event belongs to the candidate list and passes the
ringable filter. -/
theorem selectRingableSpec_mem (now : Int) :
    ∀ (l : List CalendarEvent) (e : CalendarEvent),
      selectRingableSpec now l = some e → e ∈ l ∧ isRingableAt now e = true
  | [], e => by intro h; simp [selectRingableSpec] at h
  | x :: l, e => by
    intro h
    rw [selectRingableSpec_cons] at h
    cases hspec : selectRingableSpec now l with
    | none =>
      rw [hspec] at h
      cases hq : isRingableAt now x <;> rw [hq] at h <;> simp at h
      exact ⟨by simp [h], h ▸ hq⟩
    | some y =>
      rw [hspec] at h
      have hy := selectRingableSpec_mem now l y hspec
      cases hq : isRingableAt now x with
      | false =>
        rw [hq] at h; simp at h; subst h
        exact ⟨List.mem_cons_of_mem _ hy.1, hy.2⟩
      | true =>
        rw [hq] at h; simp only [if_pos] at h
        by_cases hle : x.startTime ≤ y.startTime
        · rw [if_pos hle] at h; simp at h; subst h
          exact ⟨List.mem_cons_self _ _, hq⟩
        · rw [if_neg hle] at h; simp at h; subst h
          exact ⟨List.mem_cons_of_mem _ hy.1, hy.2⟩

/-- The spec selector returns none exactly when no candidate passes
the ringable filter. -/
theorem selectRingableSpec_none_iff (now : Int) (l : List CalendarEvent) :
    selectRingableSpec now l = none ↔ ∀ f ∈ l, isRingableAt now f = false := by
  induction l with
  | nil => simp [selectRingableSpec]
  | cons x l ih =>
    rw [selectRingableSpec_cons]
    cases hspec : selectRingableSpec now l with
    | none =>
      cases hq : isRingableAt now x with
      | false =>
        simp only [hq, if_neg (by simp : ¬(false = true))]
        constructor
        · intro _ f hf
          rcases List.mem_cons.mp hf with h1 | h1
          · subst h1; exact hq
          · exact (ih.mp hspec) f h1
        · intro _; trivial
      | true =>
        simp only [hq, if_pos rfl]
        constructor
        · intro h; cases h
        · intro h
          have := h x (List.mem_cons_self _ _)
          rw [hq] at this; cases this
    | some y =>
      have hy := selectRingableSpec_mem now l y hspec
      constructor
      · intro h
        cases hq : isRingableAt now x <;> rw [hq] at h
        · simp at h
        · by_cases hle : x.startTime ≤ y.startTime <;> simp [hle] at h
      · intro h
        have := h y (List.mem_cons_of_mem _ hy.1)
        rw [hy.2] at this; cases this

/-- A selected event has minimal start time among the ringable
candidates. -/
theorem selectRingableSpec_min (now : Int) :
    ∀ (l : List CalendarEvent) (e : CalendarEvent),
      selectRingableSpec now l = some e →
      ∀ f ∈ l, isRingableAt now f = true → e.startTime ≤ f.startTime
  | [], e => by intro h; simp [selectRingableSpec] at h
  | x :: l, e => by
    intro h f hf hqf
    rw [selectRingableSpec_cons] at h
    cases hspec : selectRingableSpec now l with
    | none =>
      rw [hspec] at h
      cases hq : isRingableAt now x <;> rw [hq] at h <;> simp at h
      rcases List.mem_cons.mp hf with h1 | h1
      · subst h1; rw [h]
      · exact absurd hqf (by
          have := (selectRingableSpec_none_iff now l).mp hspec f h1
          simp [this])
    | some y =>
      rw [hspec] at h
      have hymin := selectRingableSpec_min now l y hspec
      cases hq : isRingableAt now x with
      | false =>
        rw [hq] at h; simp at h; subst h
        rcases List.mem_cons.mp hf with h1 | h1
        · subst h1; rw [hq] at hqf; cases hqf
        · exact hymin f h1 hqf
      | true =>
        rw [hq] at h; simp only [if_pos] at h
        by_cases hle : x.startTime ≤ y.startTime
        · rw [if_pos hle] at h; simp at h; subst h
          rcases List.mem_cons.mp hf with h1 | h1
          · subst h1; exact le_refl _
          · exact le_trans hle (hymin f h1 hqf)
        · rw [if_neg hle] at h; simp at h; subst h
          rcases List.mem_cons.mp hf with h1 | h1
          · subst h1; exact le_of_not_le hle
          · exact hymin f h1 hqf

/-- Membership in the dismissed set after Set.add. -/
theorem mem_addDismissed (id : String) (l : List String) : id ∈ addDismissed id l := by
  unfold addDismissed
  by_cases h : id ∈ l
  · simp [h]
  · simp [h]

/-- onUpcomingMeeting never changes the dismissed set. -/
theorem onUpcomingMeeting_dismissedEvents (e : CalendarEvent) (now : Int)
    (hangupExists : Bool) (s : SystemState) :
    (onUpcomingMeeting e now hangupExists s).dismissedEvents = s.dismissedEvents := by
  unfold onUpcomingMeeting
  split
  · rfl
  · split <;> rfl

/-- C2: getEarliestRingableEvent returns the candidate with minimal
start time among those that are neither all-day nor cancelled and
whose start minus now lies in
[-NOTIFY_AFTER_EVENT_START_MS, NOTIFY_BEFORE_EVENT_START_MS]; an
all-day or cancelled candidate is never returned; null is returned
exactly when no candidate qualifies; and ties on the minimal start
time go to the candidate earliest in the original fetch order (the
sort is stable), which is what the spec-level selector
selectRingableSpec computes. -/
theorem C2_selector_earliest_wins (events : List CalendarEvent) (now : Int) :
    getEarliestRingableEvent events now = selectRingableSpec now events
    ∧ (∀ e : CalendarEvent, isRingableAt now e = true ↔
        (e.isAllDayEvent = false ∧ e.isCancelled = false ∧
         -NOTIFY_AFTER_EVENT_START_MS ≤ e.startTime - now ∧
         e.startTime - now ≤ NOTIFY_BEFORE_EVENT_START_MS))
    ∧ (∀ e, getEarliestRingableEvent events now = some e →
        e ∈ events ∧ e.isAllDayEvent = false ∧ e.isCancelled = false ∧
        isRingableAt now e = true ∧
        ∀ f ∈ events, isRingableAt now f = true → e.startTime ≤ f.startTime)
    ∧ (getEarliestRingableEvent events now = none ↔
        ∀ e ∈ events, isRingableAt now e = false) := by
  refine ⟨getEarliestRingableEvent_eq_spec events now, ?_, ?_, ?_⟩
  · intro e
    simp only [isRingableAt, inNotifyWindow, Bool.and_eq_true, Bool.not_eq_true',
      decide_eq_true_eq]
    tauto
  · intro e he
    rw [getEarliestRingableEvent_eq_spec] at he
    obtain ⟨hm, hq⟩ := selectRingableSpec_mem now events e he
    have hflags := hq
    simp only [isRingableAt, Bool.and_eq_true, Bool.not_eq_true'] at hflags
    exact ⟨hm, hflags.1.1, hflags.1.2, hq, selectRingableSpec_min now events e he⟩
  · rw [getEarliestRingableEvent_eq_spec]
    exact selectRingableSpec_none_iff now events

/-- Concrete instance of C2: with evB listed before evA, the selector
still returns evA, the earlier-starting meeting. -/
theorem C2_selector_earliest_wins_witness :
    getEarliestRingableEvent [evB, evA] 0 = selectRingableSpec 0 [evB, evA]
    ∧ getEarliestRingableEvent [evB, evA] 0 = some evA := by
  refine ⟨(C2_selector_earliest_wins [evB, evA] 0).1, ?_⟩
  decide

/-- C8: isInRingWindow is true exactly on the closed interval from
startTime - msBeforeStart to startTime + msAfterStart: true at both
endpoints, false one millisecond outside either, and the window filter
of getEarliestRingableEvent (inNotifyWindow) tests the same inclusive
bounds with the notify constants. -/
theorem C8_window_inclusive (startTime now before after : Int)
    (hb : 0 ≤ before) (ha : 0 ≤ after) :
    (isInRingWindow startTime now ⟨before, after⟩ = true ↔
      (startTime - before ≤ now ∧ now ≤ startTime + after))
    ∧ isInRingWindow startTime (startTime - before) ⟨before, after⟩ = true
    ∧ isInRingWindow startTime (startTime + after) ⟨before, after⟩ = true
    ∧ isInRingWindow startTime (startTime - before - 1) ⟨before, after⟩ = false
    ∧ isInRingWindow startTime (startTime + after + 1) ⟨before, after⟩ = false
    ∧ ∀ s n : Int, inNotifyWindow s n =
        isInRingWindow s n ⟨NOTIFY_BEFORE_EVENT_START_MS, NOTIFY_AFTER_EVENT_START_MS⟩ := by
  refine ⟨?_, ?_, ?_, ?_, ?_, ?_⟩
  · simp only [isInRingWindow, Bool.and_eq_true, decide_eq_true_eq]
  · simp only [isInRingWindow, Bool.and_eq_true, decide_eq_true_eq]
    omega
  · simp only [isInRingWindow, Bool.and_eq_true, decide_eq_true_eq]
    omega
  · simp only [isInRingWindow, Bool.and_eq_false_iff, decide_eq_false_iff_not]
    omega
  · simp only [isInRingWindow, Bool.and_eq_false_iff, decide_eq_false_iff_not]
    omega
  · intro s n
    simp only [inNotifyWindow, isInRingWindow]
    rw [decide_eq_decide.mpr (by omega :
        (s - n ≤ NOTIFY_BEFORE_EVENT_START_MS ↔ s - NOTIFY_BEFORE_EVENT_START_MS ≤ n)),
      decide_eq_decide.mpr (by omega :
        (-NOTIFY_AFTER_EVENT_START_MS ≤ s - n ↔ n ≤ s + NOTIFY_AFTER_EVENT_START_MS))]

/-- Concrete instance of C8 at a two-minute window. -/
theorem C8_window_inclusive_witness :
    isInRingWindow 0 (0 - 120000) ⟨120000, 120000⟩ = true
    ∧ isInRingWindow 0 (0 + 120000 + 1) ⟨120000, 120000⟩ = false := by
  have h := C8_window_inclusive 0 0 120000 120000 (by norm_num) (by norm_num)
  exact ⟨h.2.1, h.2.2.2.2.1⟩

/-- C4 is false on the code: when scheduleNextPoll runs at second 47,
the naive delay to the next :00 boundary is 13 seconds, which is not
under the 10-second threshold, so no skip-forward happens; the delay
is 13000 ms (not the 43000 ms that second 30 of the next minute would
require) and the next poll fires at second 0 of the next minute, which
the claim explicitly denies. -/
theorem C4_counterexample :
    nextPollDelayMs 47 = 13000
    ∧ ¬(13000 : Nat) < 10000
    ∧ nextPollDelayMs 47 ≠ 43000
    ∧ (47 * 1000 + nextPollDelayMs 47) % 60000 = 0 := by decide

/-- C4 amended: computing the delay at second 47 yields 13000 ms, so
the next poll fires at second 0 of the next minute, not second 30; for
every second of the minute the scheduled delay is at least 10 seconds
and lands on a :00/:30 boundary, and the half-period skip-forward
triggers exactly when the naive boundary delay is under 10 seconds,
namely at seconds 21-29 and 51-59. -/
theorem C4_scheduler_alignment :
    nextPollDelayMs 47 = 13000
    ∧ (47 * 1000 + nextPollDelayMs 47) % 60000 = 0
    ∧ ∀ sec, sec < 60 →
        (10000 ≤ nextPollDelayMs sec
         ∧ (sec * 1000 + nextPollDelayMs sec) % 30000 = 0
         ∧ (nextPollDelayMs sec ≠ (if sec < 30 then 30 - sec else 60 - sec) * 1000 ↔
            ((20 < sec ∧ sec < 30) ∨ 50 < sec))) := by decide

/-- Concrete instance of the amended C4 at second 47. -/
theorem C4_scheduler_alignment_witness :
    10000 ≤ nextPollDelayMs 47 ∧ (47 * 1000 + nextPollDelayMs 47) % 30000 = 0 := by
  have h := C4_scheduler_alignment.2.2 47 (by decide)
  exact ⟨h.1, h.2.1⟩

/-- C10: with a falsy auth token (null or empty), a poll cycle returns
immediately: no listener callback is produced and the whole state,
including any ringing notification and the dismissed set, is exactly
as before. -/
theorem C10_auth_guard_noop (authToken : Option String)
    (fetched : Except Unit (List CalendarEvent)) (now : Int)
    (hangupExists : Bool) (s : SystemState)
    (htok : tokenTruthy authToken = false) :
    checkForUpcomingMeetings authToken fetched now hangupExists s = (s, []) := by
  simp [checkForUpcomingMeetings, htok]

/-- Concrete instance of C10 on a ringing state with a null token. -/
theorem C10_auth_guard_noop_witness :
    checkForUpcomingMeetings none (.ok []) 0 false ringingState = (ringingState, []) :=
  C10_auth_guard_noop none (.ok []) 0 false ringingState rfl

/-- C9: when the fetch throws, the poll cycle catches the error and is
a no-op: the state is unchanged and no listener callback is produced;
and the timer callback still reschedules the next poll, so the
schedule continues. -/
theorem C9_fetch_error_noop (authToken : Option String) (now : Int)
    (hangupExists : Bool) (secondsNow : Nat) (s : SystemState)
    (htok : tokenTruthy authToken = true) :
    checkForUpcomingMeetings authToken (.error ()) now hangupExists s = (s, [])
    ∧ pollTimerTick authToken (.error ()) now hangupExists secondsNow s =
        ({ s with pollingIntervalId := some (nextPollDelayMs secondsNow) }, []) := by
  constructor
  · simp [checkForUpcomingMeetings, htok]
  · simp [pollTimerTick, checkForUpcomingMeetings, scheduleNextPoll, htok]

/-- Concrete instance of C9: a failing fetch during a ringing state
leaves the state intact and the schedule re-armed. -/
theorem C9_fetch_error_noop_witness :
    checkForUpcomingMeetings (some "tok") (.error ()) 0 false ringingState =
      (ringingState, [])
    ∧ pollTimerTick (some "tok") (.error ()) 0 false 15 ringingState =
        ({ ringingState with pollingIntervalId := some (nextPollDelayMs 15) }, []) :=
  C9_fetch_error_noop (some "tok") 0 false 15 ringingState rfl

/-- C5 on the code: startMonitoring marks the monitor active, performs
the immediate check and schedules a poll, but stopMonitoring only
clears the pending timer and never resets isActivelyRunning, so after
start-stop the flag still reads true and a second startMonitoring is a
complete no-op: no immediate check, no listener call, and no poll is
scheduled (pollingIntervalId stays none), contradicting the claimed
Active-to-Idle transition and restartability. -/
theorem C5_stop_start_behavior :
    startedState.isActivelyRunning = true
    ∧ startedState.pollingIntervalId = some 30000
    ∧ stoppedState.isActivelyRunning = true
    ∧ stoppedState.pollingIntervalId = none
    ∧ startMonitoring none (.ok []) 0 false 0 stoppedState = (stoppedState, [])
    ∧ (startMonitoring none (.ok []) 0 false 0 stoppedState).1.pollingIntervalId
        = none := by decide

/-- C3: while a notification is active for event E (ringing, with the
monitor's active notification set to E), a further onUpcomingMeeting
call for any event F leaves the state exactly unchanged, and a poll
cycle whose selector yields F performs no transition and produces no
listener callback: the active notification's identifier remains E's,
no new ringing starts, no timer is re-armed and the dismissed set is
untouched. -/
theorem C3_at_most_one_notification (E F : CalendarEvent) (now : Int)
    (hangupExists : Bool) (s : SystemState)
    (hring : s.isRinging = true)
    (hact : s.activeNotificationEvent = some E) :
    onUpcomingMeeting F now hangupExists s = s
    ∧ ∀ (authToken : Option String) (events : List CalendarEvent),
        getEarliestRingableEvent events now = some F →
        checkForUpcomingMeetings authToken (.ok events) now hangupExists s = (s, []) := by
  constructor
  · simp [onUpcomingMeeting, hring]
  · intro authToken events hsel
    cases htok : tokenTruthy authToken
    · simp [checkForUpcomingMeetings, htok]
    · simp [checkForUpcomingMeetings, htok, hsel, hact]

/-- Concrete instance of C3: while ringing for evA, a call for evB and
a poll cycle selecting evB change nothing. -/
theorem C3_at_most_one_notification_witness :
    onUpcomingMeeting evB 0 false ringingState = ringingState
    ∧ checkForUpcomingMeetings (some "tok") (.ok [evB]) 0 false ringingState =
        (ringingState, []) := by
  have h := C3_at_most_one_notification evA evB 0 false ringingState rfl rfl
  exact ⟨h.1, h.2 (some "tok") [evB] (by decide)⟩

/-- C1 is false on the code in both directions.  A quiet cycle (the
selector reports zero ringable meetings) that runs while no
notification is active does not invoke onNoUpcomingMeetings at all, so
a previously dismissed identifier (here X) survives the quiet cycle;
and a quiet cycle that runs while ringing clears the set but then
stopNotification re-adds the identifier of the event being stopped, so
the set ends up as [A], not empty. -/
theorem C1_counterexample :
    getEarliestRingableEvent [] 0 = none
    ∧ (checkForUpcomingMeetings (some "tok") (.ok []) 0 false
        dismissedIdleState).1.dismissedEvents = ["X"]
    ∧ (checkForUpcomingMeetings (some "tok") (.ok []) 0 false
        ringingState).1.dismissedEvents = ["A"] := by decide

/-- C1 amended: across any poll cycle the dismissed set changes only
at a quiet cycle that runs while a notification is active; such a
cycle replaces the set by the singleton holding the identifier of the
notification's current event (or by the empty set when there is no
current event).  Every other cycle - a cycle that selects a ringable
meeting, a quiet cycle with no active notification, a cycle without an
auth token, or a cycle whose fetch throws - leaves the dismissed set
exactly unchanged, so identifiers are never removed at any other
cycle. -/
theorem C1_dismissed_set_evolution (authToken : Option String)
    (fetched : Except Unit (List CalendarEvent)) (now : Int) (hangupExists : Bool)
    (s : SystemState) :
    (checkForUpcomingMeetings authToken fetched now hangupExists s).1.dismissedEvents =
      if tokenTruthy authToken = false then s.dismissedEvents
      else
        match fetched with
        | .error _ => s.dismissedEvents
        | .ok events =>
          match getEarliestRingableEvent events now with
          | some _ => s.dismissedEvents
          | none =>
            if s.activeNotificationEvent.isSome then
              match s.currentEvent with
              | some e => [e.objectId]
              | none => []
            else s.dismissedEvents := by
  cases htok : tokenTruthy authToken with
  | false => simp [checkForUpcomingMeetings, htok]
  | true =>
    cases fetched with
    | error u => simp [checkForUpcomingMeetings, htok]
    | ok events =>
      cases hsel : getEarliestRingableEvent events now with
      | some ev =>
        by_cases hact : s.activeNotificationEvent.isSome
        · simp [checkForUpcomingMeetings, htok, hsel, hact]
        · simp [checkForUpcomingMeetings, htok, hsel, hact,
            onUpcomingMeeting_dismissedEvents]
      | none =>
        by_cases hact : s.activeNotificationEvent.isSome
        · cases hcur : s.currentEvent with
          | some e =>
            simp [checkForUpcomingMeetings, htok, hsel, hact, onNoUpcomingMeetings,
              stopNotification, addDismissed, hcur]
          | none =>
            simp [checkForUpcomingMeetings, htok, hsel, hact, onNoUpcomingMeetings,
              stopNotification, hcur]
        · simp [checkForUpcomingMeetings, htok, hsel, hact]

/-- C6 is false on the code.  Scenario: the DOM holds the prejoin
button but not the hangup button, both when the ring starts and at the
next DOM change, so the observed "user is joining or in call" signal
(prejoin or hangup) is true throughout: there is no false-to-true
transition of that signal and its value at ring start was true (the
user was already joining).  Yet the ring stops at the first DOM
change, because onUpcomingMeeting initializes the stored flag from the
hangup button alone and ignores the prejoin button. -/
theorem C6_counterexample :
    (onUpcomingMeeting evA 0 false initialSystemState).isRinging = true
    ∧ (onUpcomingMeeting evA 0 false initialSystemState).userIsJoiningOrInCall = false
    ∧ (onDomChange true false
        (onUpcomingMeeting evA 0 false initialSystemState)).isRinging = false
    ∧ (onDomChange true false
        (onUpcomingMeeting evA 0 false initialSystemState)).currentEvent = none := by
  decide

/-- C6 amended: onDomChange always stores the freshly observed
combined signal (prejoin or hangup); it performs no transition
whenever the previously stored value is true - so a call whose hangup
button was present at ring start and whose signal stayed true never
stops the ring; it stops the notification exactly when ringing with
the previously stored value false and the new observation true; and
the stored value is re-initialized at ring start from the hangup
button alone, ignoring the prejoin button. -/
theorem C6_join_edge_detection (p h : Bool) (E : CalendarEvent) (now : Int)
    (s : SystemState) :
    ((onDomChange p h s).userIsJoiningOrInCall = (p || h))
    ∧ (s.userIsJoiningOrInCall = true →
        onDomChange p h s = { s with userIsJoiningOrInCall := p || h })
    ∧ (s.isRinging = true → s.userIsJoiningOrInCall = false → (p || h) = true →
        onDomChange p h s = { stopNotification s with userIsJoiningOrInCall := true })
    ∧ (s.isRinging = true → s.userIsJoiningOrInCall = false → (p || h) = true →
        s.ringtonePlaying = true → (onDomChange p h s).isRinging = false)
    ∧ (E.objectId ∉ s.dismissedEvents → s.isRinging = false →
        (onUpcomingMeeting E now h s).userIsJoiningOrInCall = h) := by
  refine ⟨?_, ?_, ?_, ?_, ?_⟩
  · rfl
  · intro hstored
    simp [onDomChange, hstored]
  · intro hring hstored hnow
    simp [onDomChange, hring, hstored, hnow]
  · intro hring hstored hnow hplay
    simp [onDomChange, hring, hstored, hnow, stopNotification, hplay]
  · intro hd hr
    unfold onUpcomingMeeting
    rw [if_neg hd, if_neg (by simp [hr])]

/-- Concrete instance of the amended C6: with the hangup button
present at ring start and still present later, the ring survives the
DOM change. -/
theorem C6_join_edge_detection_witness :
    onDomChange false true { ringingState with userIsJoiningOrInCall := true } =
      { ringingState with userIsJoiningOrInCall := true } :=
  (C6_join_edge_detection false true evA 0
    { ringingState with userIsJoiningOrInCall := true }).2.1 rfl

/-- C7: starting a notification for E at time now (not dismissed, not
already ringing, ringtone idle, and now at most start + afterWindow)
arms the timeout to fire exactly at startTime E plus
NOTIFY_AFTER_EVENT_START_MS - independent of now, hence of when
polling detected the meeting - and when that timer fires with no
dismiss or join in between, the notification returns to idle: audio
stopped, timer cleared, active notification and current event cleared,
and E marked dismissed. -/
theorem C7_timeout_at_start_plus_after (E : CalendarEvent) (now : Int)
    (hangupExists : Bool) (s : SystemState)
    (hd : E.objectId ∉ s.dismissedEvents)
    (hr : s.isRinging = false)
    (hp : s.ringtonePlaying = false)
    (hw : now ≤ E.startTime + NOTIFY_AFTER_EVENT_START_MS) :
    (onUpcomingMeeting E now hangupExists s).notificationTimeout =
      some (E.startTime + NOTIFY_AFTER_EVENT_START_MS)
    ∧ (onUpcomingMeeting E now hangupExists s).isRinging = true
    ∧ (onUpcomingMeeting E now hangupExists s).currentEvent = some E
    ∧ (notificationTimeoutFire (onUpcomingMeeting E now hangupExists s)).isRinging = false
    ∧ (notificationTimeoutFire (onUpcomingMeeting E now hangupExists s)).ringtonePlaying
        = false
    ∧ (notificationTimeoutFire (onUpcomingMeeting E now hangupExists s)).notificationTimeout
        = none
    ∧ (notificationTimeoutFire
        (onUpcomingMeeting E now hangupExists s)).activeNotificationEvent = none
    ∧ (notificationTimeoutFire (onUpcomingMeeting E now hangupExists s)).currentEvent
        = none
    ∧ E.objectId ∈
        (notificationTimeoutFire (onUpcomingMeeting E now hangupExists s)).dismissedEvents
    := by
  have htime : setTimeoutFireTime now ((E.startTime - now) + NOTIFY_AFTER_EVENT_START_MS)
      = E.startTime + NOTIFY_AFTER_EVENT_START_MS := by
    unfold setTimeoutFireTime
    rw [max_eq_left (by omega : (0 : Int) ≤ (E.startTime - now) + NOTIFY_AFTER_EVENT_START_MS)]
    ring
  have hs1 : onUpcomingMeeting E now hangupExists s =
      { s with
        currentEvent := some E,
        activeNotificationEvent := some E,
        isRinging := true,
        ringtonePlaying := true,
        userIsJoiningOrInCall := hangupExists,
        notificationTimeout := some (E.startTime + NOTIFY_AFTER_EVENT_START_MS) } := by
    unfold onUpcomingMeeting
    rw [if_neg hd, if_neg (by simp [hr]), htime]
    simp [hp]
  rw [hs1]
  refine ⟨rfl, rfl, rfl, ?_, rfl, rfl, rfl, rfl, ?_⟩
  · simp [notificationTimeoutFire, stopNotification]
  · simp [notificationTimeoutFire, stopNotification]
    exact mem_addDismissed E.objectId s.dismissedEvents

/-- Concrete instance of C7: although polling detects evA at time 0,
its timeout is armed for evA's start time plus the after-window, and
firing it lands back in idle with evA dismissed. -/
theorem C7_timeout_at_start_plus_after_witness :
    (onUpcomingMeeting evA 0 false initialSystemState).notificationTimeout =
      some (evA.startTime + NOTIFY_AFTER_EVENT_START_MS)
    ∧ "A" ∈ (notificationTimeoutFire
        (onUpcomingMeeting evA 0 false initialSystemState)).dismissedEvents := by
  have h := C7_timeout_at_start_plus_after evA 0 false initialSystemState
    (by simp [initialSystemState]) rfl rfl (by decide)
  exact ⟨h.1, h.2.2.2.2.2.2.2.2⟩
